import Mathlib

/-!
Shallow embedding of the chytorch LoRA modules.

Scalars are modelled as `WithBot ℚ`: the bottom element `⊥` stands for the
floating-point value negative infinity written by `weight[neg_inf_idx].fill_(-inf)`
in `chytorch/nn/lora/embedding.py`; every other value produced by the code in the
claims under study is an ordinary (finite) number, modelled as a rational.
Tensors of floats are matrices `List (List R)` together with an explicit record of
the leading (pre-flatten) shape; index tensors are a shape plus row-major flat
index data, mirroring how `flatten(end_dim=-2)` / `view` only move shape metadata.
-/

/-- Scalar type of the model: rationals extended with `⊥` for float `-inf`. -/
abbrev R : Type := WithBot ℚ

/-- Dot product of two rows, truncating to the shorter one (shapes agree in use). -/
def dotProd (u v : List R) : R := (List.zipWith (fun a b => a * b) u v).sum

/-- Number of columns of a matrix, read off its first row. -/
def numCols (M : List (List R)) : Nat := (M.headD []).length

/-- Column `j` of a matrix. -/
def colOf (M : List (List R)) (j : Nat) : List R := M.map (fun r => r.getD j 0)

/-- Matrix transpose, as `tensor.transpose(0, 1)` on a rectangular matrix. -/
def transposeM (M : List (List R)) : List (List R) :=
  (List.range (numCols M)).map (colOf M)

/-- Matrix product `A @ B`. -/
def matMul (A B : List (List R)) : List (List R) :=
  A.map (fun ra => (transposeM B).map (dotProd ra))

/-- Scalar multiple of a matrix by a finite scalar. -/
def smulMat (c : ℚ) (M : List (List R)) : List (List R) :=
  M.map (List.map (fun v => (c : R) * v))

/-- Elementwise matrix sum. -/
def matAdd (A B : List (List R)) : List (List R) :=
  List.zipWith (List.zipWith (fun a b => a + b)) A B

/-- `torch.addmm(inp, m1, m2, alpha)` with the default `beta = 1`:
`inp + alpha * (m1 @ m2)`. -/
def addmm (inp m1 m2 : List (List R)) (alpha : ℚ) : List (List R) :=
  matAdd inp (smulMat alpha (matMul m1 m2))

/-- Index tensor of arbitrary shape: shape metadata plus row-major flat data. -/
structure IdxTensor where
  shape : List Nat
  data : List Nat
deriving DecidableEq

/-- Float tensor whose last dimension holds embedding vectors: the leading shape
plus the matrix obtained by flattening all leading dimensions, exactly the view
`flatten(end_dim=-2)` exposes. -/
structure Tens where
  leadShape : List Nat
  rows : List (List R)
deriving DecidableEq

/-- State of `chytorch.nn.lora.Embedding`: the base table and flags of
`torch.nn.Embedding` (default options: no `padding_idx`, no `max_norm`), plus
the dynamic LoRA attributes, present (`some`) or deleted/absent (`none`). -/
structure Embedding where
  num_embeddings : Nat
  embedding_dim : Nat
  weight : List (List R)
  weight_requires_grad : Bool
  lora_r : Nat
  lora_a : Option (List (List R))
  lora_b : Option (List (List R))
  lora_alpha : Option ℚ
  lora_scaling : Option ℚ
  neg_inf_idx : Option Nat
deriving DecidableEq

/-- `weight[i].fill_(v)`: overwrite row `i` with the constant `v`, keeping its
length; rows out of range are untouched (`List.set` semantics). -/
def fillRow (W : List (List R)) (i : Nat) (v : R) : List (List R) :=
  W.set i (List.replicate (W.getD i []).length v)

/-- Lift a matrix of finite rationals into the scalar model. -/
def ratMat (M : List (List ℚ)) : List (List R) :=
  M.map (List.map (fun q : ℚ => (q : R)))

/-- The base weight right after `super().__init__` and the optional sentinel
fill `self.weight[neg_inf_idx].fill_(-inf)` under `no_grad`. -/
def initWeight (weight0 : List (List ℚ)) (neg_inf_idx : Option Nat) : List (List R) :=
  match neg_inf_idx with
  | none => ratMat weight0
  | some i => fillRow (ratMat weight0) i ⊥

/-- `Embedding.__init__`.  `weight0` models the randomly initialised base table
of `torch.nn.Embedding` and `bInit` the `init.normal_` sample for factor B; both
are finite.  Order follows the source: base init (gradients on by default), then
the `-inf` fill of the sentinel row under `no_grad`, then — when `lora_r` is
non-zero — freezing of the base weight, zero-initialised factor A of shape
`num_embeddings × lora_r`, factor B of shape `embedding_dim × lora_r`, and the
cached scaling constant `lora_alpha / lora_r`. -/
def Embedding.init (num_embeddings embedding_dim : Nat) (weight0 : List (List ℚ))
    (lora_r : Nat) (lora_alpha : ℚ) (neg_inf_idx : Option Nat)
    (bInit : List (List ℚ)) : Embedding :=
  let w1 : List (List R) := initWeight weight0 neg_inf_idx
  if lora_r ≠ 0 then
    { num_embeddings := num_embeddings, embedding_dim := embedding_dim
      weight := w1, weight_requires_grad := false
      lora_r := lora_r
      lora_a := some (List.replicate num_embeddings (List.replicate lora_r (0 : R)))
      lora_b := some (ratMat bInit)
      lora_alpha := some lora_alpha
      lora_scaling := some (lora_alpha / (lora_r : ℚ))
      neg_inf_idx := neg_inf_idx }
  else
    { num_embeddings := num_embeddings, embedding_dim := embedding_dim
      weight := w1, weight_requires_grad := true
      lora_r := 0, lora_a := none, lora_b := none, lora_alpha := none
      lora_scaling := none, neg_inf_idx := neg_inf_idx }

/-- `torch.empty(rows, cols)`: allocation fails on a negative dimension. -/
def torchEmptyCheck (rows cols : Int) : Except String Unit :=
  if rows < 0 ∨ cols < 0 then
    Except.error "Trying to create tensor with negative dimension"
  else Except.ok ()

/-- `Embedding.__init__` over an arbitrary integer rank, as Python receives it:
`if lora_r:` is non-zero truthiness, and the first factor-tensor allocation
`empty(num_embeddings, lora_r)` fails for a negative rank, so construction
errors before a layer value exists. -/
def Embedding.initZ (num_embeddings embedding_dim : Nat) (weight0 : List (List ℚ))
    (lora_r : Int) (lora_alpha : ℚ) (neg_inf_idx : Option Nat)
    (bInit : List (List ℚ)) : Except String Embedding :=
  if lora_r ≠ 0 then
    match torchEmptyCheck (num_embeddings : Int) lora_r with
    | Except.error e => Except.error e
    | Except.ok _ =>
        Except.ok (Embedding.init num_embeddings embedding_dim weight0
          lora_r.toNat lora_alpha neg_inf_idx bInit)
  else
    Except.ok (Embedding.init num_embeddings embedding_dim weight0 0 lora_alpha
      neg_inf_idx bInit)

/-- Row lookup of each index: `embedding(x, W)` with default options. -/
def lookupRows (W : List (List R)) (idx : List Nat) : List (List R) :=
  idx.map (fun i => W.getD i [])

/-- `torch.nn.Embedding.forward` with the default options (no `padding_idx`,
`max_norm`, etc.): a plain row lookup, output shape `x.shape + [embedding_dim]`. -/
def tEmbeddingForward (weight : List (List R)) (x : IdxTensor) : Tens :=
  { leadShape := x.shape, rows := lookupRows weight x.data }

/-- `Embedding.forward`: base lookup; when LoRA is active, additionally look the
indices up in factor A and return
`addmm(emb.flatten(end_dim=-2), a.flatten(end_dim=-2), lora_b.transpose(0,1), alpha=_lora_scaling).view(emb.shape)`. -/
def Embedding.forward (m : Embedding) (x : IdxTensor) : Tens :=
  let emb := tEmbeddingForward m.weight x
  if m.lora_r ≠ 0 then
    let a := lookupRows (m.lora_a.getD []) x.data
    { leadShape := emb.leadShape
      rows := addmm emb.rows a (transposeM (m.lora_b.getD [])) (m.lora_scaling.getD 0) }
  else emb

/-- `Embedding.forward` with the post-call layer state made explicit: the method
body only reads attributes (no assignment to `self`), so the state it returns is
the state it received. -/
def Embedding.forwardS (m : Embedding) (x : IdxTensor) : Embedding × Tens :=
  let emb := tEmbeddingForward m.weight x
  if m.lora_r ≠ 0 then
    let a := lookupRows (m.lora_a.getD []) x.data
    (m, { leadShape := emb.leadShape
          rows := addmm emb.rows a (transposeM (m.lora_b.getD [])) (m.lora_scaling.getD 0) })
  else (m, emb)

/-- `Embedding.merge_lora`: no-op when the rank is zero; otherwise fold
`(lora_a @ lora_b.transpose(0,1)) * _lora_scaling` into the base weight,
re-enable its gradient, zero the rank and delete the LoRA attributes. -/
def Embedding.merge_lora (m : Embedding) : Embedding :=
  if m.lora_r = 0 then m
  else
    { m with
      weight := matAdd m.weight
        (smulMat (m.lora_scaling.getD 0)
          (matMul (m.lora_a.getD []) (transposeM (m.lora_b.getD []))))
      weight_requires_grad := true
      lora_r := 0
      lora_a := none, lora_b := none, lora_alpha := none, lora_scaling := none }

/-!
Model of `chytorch/nn/lora/transformer.py`.  The sublayers (`MultiheadAttention`,
`Linear`, `LayerNorm`, `Dropout`, the activation) are held as abstract functions
in the layer record: the claims under study concern how `EncoderLayer.forward`
composes them, not their internals.  Tensors are batch-first and 3-dimensional,
`(batch, sequence, feature)`, with explicit size metadata so that `torch.cat`'s
shape check is observable.
-/

/-- Batch-first 3-D tensor `(nb, ns, nd)` with nested data `batch / seq / vec`. -/
structure T3 where
  nb : Nat
  ns : Nat
  nd : Nat
  data : List (List (List R))
deriving DecidableEq

/-- `torch.cat([a, b], dim=0)`: requires all dimensions except 0 to match, and
concatenates along dimension 0 — the batch axis of a batch-first tensor. -/
def cat0 (a b : T3) : Except String T3 :=
  if a.ns = b.ns ∧ a.nd = b.nd then
    Except.ok { nb := a.nb + b.nb, ns := a.ns, nd := a.nd, data := a.data ++ b.data }
  else Except.error "Sizes of tensors must match except in dimension 0"

/-- Elementwise sum of same-shaped tensors (the residual add `x + ...`). -/
def addT3 (a b : T3) : T3 :=
  { a with data := List.zipWith (List.zipWith (List.zipWith (fun u v => u + v))) a.data b.data }

/-- State of `chytorch.nn.lora.transformer.EncoderLayer`: its sublayers as
abstract tensor functions (`self_attn` takes query, key/value, mask and the
`need_weights` flag and returns the output and optional attention weights),
plus the `norm_first` flag. -/
structure EncoderLayer where
  self_attn : T3 → T3 → T3 → Bool → T3 × Option T3
  linear1 : T3 → T3
  linear2 : T3 → T3
  norm1 : T3 → T3
  norm2 : T3 → T3
  dropout1 : T3 → T3
  dropout2 : T3 → T3
  dropout3 : T3 → T3
  activation : T3 → T3
  norm_first : Bool

/-- `EncoderLayer._ff`: `dropout3(linear2(dropout2(activation(linear1 x))))`. -/
def EncoderLayer.ff (L : EncoderLayer) (x : T3) : T3 :=
  L.dropout3 (L.linear2 (L.dropout2 (L.activation (L.linear1 x))))

/-- `EncoderLayer.forward(x, attn_mask, *, hidden, need_embedding, need_weights)`.
Shape errors raised by the underlying tensor operations (here: `torch.cat` on the
cached-inference path) propagate to the caller unmodified. -/
def EncoderLayer.forward (L : EncoderLayer) (x attn_mask : T3) (hidden : Option T3)
    (need_embedding need_weights : Bool) : Except String (Option T3 × Option T3) :=
  let nx := if L.norm_first then L.norm1 x else x
  let kvE : Except String T3 :=
    match hidden with
    | none => Except.ok nx
    | some h => cat0 (if L.norm_first then L.norm1 h else h) nx
  match kvE with
  | Except.error e => Except.error e
  | Except.ok kv =>
    let ea := L.self_attn nx kv attn_mask need_weights
    if need_embedding then
      let x1 := addT3 x (L.dropout1 ea.1)
      if L.norm_first then
        Except.ok (some (addT3 x1 (L.ff (L.norm2 x1))), ea.2)
      else
        let x2 := L.norm1 x1
        Except.ok (some (L.norm2 (addT3 x2 (L.ff x2))), ea.2)
    else
      Except.ok (none, ea.2)

/-! Helper lemmas shared by the claim theorems. -/

theorem dotProd_nil (v : List R) : dotProd [] v = 0 := rfl

theorem dotProd_replicate_zero (n : Nat) (v : List R) :
    dotProd (List.replicate n (0 : R)) v = 0 := by
  induction v generalizing n with
  | nil => simp [dotProd]
  | cons c t ih =>
    cases n with
    | zero => simp [dotProd]
    | succ k =>
      have := ih k
      simp only [dotProd, List.replicate_succ, List.zipWith_cons_cons, List.sum_cons] at this ⊢
      simp [this]

theorem length_transposeM (M : List (List R)) : (transposeM M).length = numCols M := by
  simp [transposeM]

theorem numCols_transposeM (B : List (List R)) (r : Nat) (hr : r ≠ 0)
    (hrows : ∀ row ∈ B, row.length = r) : numCols (transposeM B) = B.length := by
  cases B with
  | nil => simp [transposeM, numCols, colOf]
  | cons b0 bt =>
    have hb0 : b0.length = r := hrows b0 (by simp)
    obtain ⟨k, rfl⟩ : ∃ k, r = k + 1 :=
      ⟨r - 1, (Nat.succ_pred_eq_of_pos (Nat.pos_of_ne_zero hr)).symm⟩
    simp [transposeM, numCols, hb0, List.range_succ_eq_map, colOf]

theorem zipWith_add_zeros : ∀ (u z : List R), u.length ≤ z.length → (∀ a ∈ z, a = 0) →
    List.zipWith (fun a b => a + b) u z = u
  | [], _, _, _ => by simp
  | a :: t, [], h, _ => by simp at h
  | a :: t, b :: zt, h, hz => by
    have hb : b = 0 := hz b (by simp)
    have ht : List.zipWith (fun a b => a + b) t zt = t :=
      zipWith_add_zeros t zt (by simpa using h) (fun c hc => hz c (by simp [hc]))
    simp [hb, ht]

theorem getD_length_le (W : List (List R)) (d : Nat) (hW : ∀ row ∈ W, row.length ≤ d)
    (i : Nat) : (W.getD i []).length ≤ d := by
  rcases Nat.lt_or_ge i W.length with h | h
  · rw [List.getD_eq_getElem _ _ h]
    exact hW _ (List.getElem_mem h)
  · rw [List.getD_eq_default _ _ h]
    simp

theorem ratMat_row_lengths (M : List (List ℚ)) (d : Nat)
    (hM : ∀ row ∈ M, row.length = d) : ∀ row ∈ ratMat M, row.length = d := by
  intro row hrow
  rcases List.mem_map.1 hrow with ⟨r0, hr0, rfl⟩
  simpa using hM r0 hr0

theorem fillRow_row_length_le (W : List (List R)) (d i : Nat) (v : R)
    (hW : ∀ row ∈ W, row.length ≤ d) : ∀ row ∈ fillRow W i v, row.length ≤ d := by
  intro row hrow
  rcases List.mem_or_eq_of_mem_set hrow with h | rfl
  · exact hW _ h
  · simpa using getD_length_le W d hW i

theorem initWeight_row_length_le (weight0 : List (List ℚ)) (nii : Option Nat) (d : Nat)
    (hW : ∀ row ∈ weight0, row.length = d) :
    ∀ row ∈ initWeight weight0 nii, row.length ≤ d := by
  have hW' : ∀ row ∈ ratMat weight0, row.length ≤ d := fun row h =>
    Nat.le_of_eq (ratMat_row_lengths weight0 d hW row h)
  cases nii with
  | none => simpa [initWeight] using hW'
  | some i => exact fillRow_row_length_le _ d i _ hW'

/-! Claim theorems. -/

/-- C4: calling `merge_lora` twice is equivalent to calling it once — the second
call leaves every attribute unchanged and does not raise — and on a layer whose
rank is zero `merge_lora` is a no-op. -/
theorem C4_merge_lora_idempotent (m : Embedding) :
    m.merge_lora.merge_lora = m.merge_lora ∧ (m.lora_r = 0 → m.merge_lora = m) := by
  constructor
  · by_cases h : m.lora_r = 0
    · simp [Embedding.merge_lora, h]
    · have h1 : m.merge_lora.lora_r = 0 := by simp [Embedding.merge_lora, h]
      conv_lhs => rw [Embedding.merge_lora]
      simp [h1]
  · intro h
    simp [Embedding.merge_lora, h]

/-- Witness for C4 at a concrete rank-zero layer. -/
theorem C4_merge_lora_idempotent_witness :
    (Embedding.init 2 2 [[1, 0], [0, 1]] 0 1 none []).merge_lora.merge_lora
        = (Embedding.init 2 2 [[1, 0], [0, 1]] 0 1 none []).merge_lora ∧
      (Embedding.init 2 2 [[1, 0], [0, 1]] 0 1 none []).merge_lora
        = Embedding.init 2 2 [[1, 0], [0, 1]] 0 1 none [] :=
  ⟨(C4_merge_lora_idempotent _).1, (C4_merge_lora_idempotent _).2 rfl⟩

/-- C6: an `Embedding` constructed with `lora_r = 0` computes, on every index
tensor, exactly the plain `torch.nn.Embedding` forward over the same base
weights, and holds no LoRA parameters. -/
theorem C6_rank_zero_plain (ne d : Nat) (w0 : List (List ℚ)) (a : ℚ)
    (nii : Option Nat) (b : List (List ℚ)) (x : IdxTensor) :
    (Embedding.init ne d w0 0 a nii b).forward x
        = tEmbeddingForward (Embedding.init ne d w0 0 a nii b).weight x ∧
      (Embedding.init ne d w0 0 a nii b).lora_a = none ∧
      (Embedding.init ne d w0 0 a nii b).lora_b = none := by
  refine ⟨?_, rfl, rfl⟩
  simp [Embedding.init, Embedding.forward]

/-- C10: `forward` is read-only on the layer: the post-call state equals the
pre-call state in every attribute, and the returned value is the forward
output. -/
theorem C10_forward_pure (m : Embedding) (x : IdxTensor) :
    (m.forwardS x).1 = m ∧ (m.forwardS x).2 = m.forward x := by
  by_cases h : m.lora_r ≠ 0 <;> simp [Embedding.forwardS, Embedding.forward, h]

/-- C2: on a LoRA-active layer, `merge_lora` adds `(A @ Bᵀ) * alpha/rank` to the
base weight, re-enables its gradient, and deletes the factors, alpha and the
cached scaling, leaving the merged (rank-zero) state. -/
theorem C2_merge_lora_folds (m : Embedding) (A B : List (List R)) (a : ℚ)
    (hr : m.lora_r ≠ 0) (hA : m.lora_a = some A) (hB : m.lora_b = some B)
    (ha : m.lora_alpha = some a) (hs : m.lora_scaling = some (a / (m.lora_r : ℚ))) :
    m.merge_lora = { m with
      weight := matAdd m.weight (smulMat (a / (m.lora_r : ℚ)) (matMul A (transposeM B)))
      weight_requires_grad := true
      lora_r := 0
      lora_a := none, lora_b := none, lora_alpha := none, lora_scaling := none } := by
  simp [Embedding.merge_lora, hr, hA, hB, hs]

/-- Witness for C2 at a concrete LoRA-active layer. -/
theorem C2_merge_lora_folds_witness :
    (Embedding.init 2 2 [[1, 0], [0, 1]] 1 1 none [[1], [2]]).merge_lora
      = { Embedding.init 2 2 [[1, 0], [0, 1]] 1 1 none [[1], [2]] with
          weight := matAdd (Embedding.init 2 2 [[1, 0], [0, 1]] 1 1 none [[1], [2]]).weight
            (smulMat ((1 : ℚ) / ((Embedding.init 2 2 [[1, 0], [0, 1]] 1 1 none [[1], [2]]).lora_r : ℚ))
              (matMul (List.replicate 2 (List.replicate 1 (0 : R)))
                (transposeM (ratMat [[1], [2]]))))
          weight_requires_grad := true
          lora_r := 0
          lora_a := none, lora_b := none, lora_alpha := none, lora_scaling := none } :=
  C2_merge_lora_folds _ (List.replicate 2 (List.replicate 1 (0 : R)))
    (ratMat [[1], [2]]) 1 (by decide) rfl rfl rfl rfl

/-- C9: constructing with a negative LoRA rank fails fast with an error at the
factor-tensor allocation, before any layer value exists. -/
theorem C9_negative_rank_fails (ne d : Nat) (w0 : List (List ℚ)) (r : Int) (a : ℚ)
    (nii : Option Nat) (b : List (List ℚ)) (hr : r < 0) :
    Embedding.initZ ne d w0 r a nii b
      = Except.error "Trying to create tensor with negative dimension" := by
  have h0 : r ≠ 0 := by omega
  simp [Embedding.initZ, torchEmptyCheck, h0, hr]

/-- Witness for C9 at rank `-1`. -/
theorem C9_negative_rank_fails_witness :
    Embedding.initZ 2 2 [[1, 0], [0, 1]] (-1) 1 none []
      = Except.error "Trying to create tensor with negative dimension" :=
  C9_negative_rank_fails 2 2 [[1, 0], [0, 1]] (-1) 1 none [] (by decide)

/-- C7 (amended): with a sentinel index inside the table, the sentinel row
equals `-inf` in every element immediately after construction, for every rank;
with `lora_r ≠ 0` the whole base weight (the sentinel row included) is frozen,
while with `lora_r = 0` gradient tracking on the weight stays enabled. -/
theorem C7_sentinel_row (ne d : Nat) (w0 : List (List ℚ)) (r : Nat) (a : ℚ)
    (b : List (List ℚ)) (i : Nat) (hi : i < w0.length) :
    (Embedding.init ne d w0 r a (some i) b).weight.getD i []
        = List.replicate (w0.getD i []).length (⊥ : R) ∧
      (r ≠ 0 → (Embedding.init ne d w0 r a (some i) b).weight_requires_grad = false) ∧
      (r = 0 → (Embedding.init ne d w0 r a (some i) b).weight_requires_grad = true) := by
  have hlen : (ratMat w0).length = w0.length := by simp [ratMat]
  have hi' : i < (ratMat w0).length := by rw [hlen]; exact hi
  have hw : (Embedding.init ne d w0 r a (some i) b).weight = fillRow (ratMat w0) i ⊥ := by
    by_cases h : r = 0 <;> simp [Embedding.init, initWeight, h]
  refine ⟨?_, fun h => by simp [Embedding.init, h], fun h => by simp [Embedding.init, h]⟩
  rw [hw]
  unfold fillRow
  rw [List.getD_eq_getElem _ _ (by simpa using hi')]
  rw [List.getElem_set_self]
  congr 1
  rw [List.getD_eq_getElem _ _ hi', List.getD_eq_getElem _ _ hi]
  simp [ratMat]

/-- Witness for C7 at a concrete layer with sentinel row 0 and rank 1. -/
theorem C7_sentinel_row_witness :
    (Embedding.init 2 2 [[1, 2], [3, 4]] 1 1 (some 0) [[5], [6]]).weight.getD 0 []
        = List.replicate 2 (⊥ : R) ∧
      (Embedding.init 2 2 [[1, 2], [3, 4]] 1 1 (some 0) [[5], [6]]).weight_requires_grad
        = false :=
  ⟨(C7_sentinel_row 2 2 [[1, 2], [3, 4]] 1 1 [[5], [6]] 0 (by decide)).1,
   (C7_sentinel_row 2 2 [[1, 2], [3, 4]] 1 1 [[5], [6]] 0 (by decide)).2.1 (by decide)⟩

/-- C7 counterexample: with `lora_r = 0` and a sentinel index configured,
gradient tracking on the weight table — the sentinel row included — remains
enabled after construction; nothing in the layer bypasses it or re-pins the
row. -/
theorem C7_sentinel_row_cx :
    (Embedding.init 2 2 [[1, 2], [3, 4]] 0 1 (some 0) []).weight_requires_grad = true := by
  decide

/-- C5: a freshly constructed layer with `lora_r > 0` has factor A zero, so
`forward` equals the base-only lookup exactly, on every index tensor. -/
theorem C5_fresh_forward_base (ne d r : Nat) (w0 : List (List ℚ)) (a : ℚ)
    (nii : Option Nat) (b : List (List ℚ)) (x : IdxTensor)
    (hr : r ≠ 0)
    (hW : ∀ row ∈ w0, row.length = d)
    (hBl : b.length = d)
    (hBr : ∀ row ∈ b, row.length = r) :
    (Embedding.init ne d w0 r a nii b).forward x
      = tEmbeddingForward (Embedding.init ne d w0 r a nii b).weight x := by
  have hzlen : (transposeM (transposeM (ratMat b))).length = d := by
    rw [length_transposeM, numCols_transposeM (ratMat b) r hr (ratMat_row_lengths b r hBr)]
    simpa [ratMat] using hBl
  have hwle : ∀ i : Nat, ((initWeight w0 nii).getD i []).length ≤ d :=
    getD_length_le _ d (initWeight_row_length_le w0 nii d hW)
  have hdot : ∀ (i : Nat) (c : List R),
      dotProd ((List.replicate ne (List.replicate r (0 : R))).getD i []) c = 0 := by
    intro i c
    rcases Nat.lt_or_ge i ne with h | h
    · rw [List.getD_eq_getElem _ _ (by simpa using h), List.getElem_replicate]
      exact dotProd_replicate_zero r c
    · rw [List.getD_eq_default _ _ (by simpa using h)]
      exact dotProd_nil c
  have hrow : ∀ i : Nat,
      List.zipWith (fun u v => u + v) ((initWeight w0 nii).getD i [])
        (((transposeM (transposeM (ratMat b))).map
            (dotProd ((List.replicate ne (List.replicate r (0 : R))).getD i []))).map
          (fun v => ((a / (r : ℚ) : ℚ) : R) * v))
        = (initWeight w0 nii).getD i [] := by
    intro i
    apply zipWith_add_zeros
    · simpa [hzlen] using hwle i
    · intro v hv
      rcases List.mem_map.1 hv with ⟨u, hu, rfl⟩
      rcases List.mem_map.1 hu with ⟨c, hc, rfl⟩
      rw [hdot i c, mul_zero]
  have main : ∀ l : List Nat,
      matAdd (lookupRows (initWeight w0 nii) l)
        (smulMat (a / (r : ℚ))
          (matMul (lookupRows (List.replicate ne (List.replicate r (0 : R))) l)
            (transposeM (ratMat b))))
      = lookupRows (initWeight w0 nii) l := by
    intro l
    induction l with
    | nil => rfl
    | cons i t ih =>
      simp only [lookupRows, List.map_cons, matMul, smulMat, matAdd,
        List.zipWith_cons_cons] at ih ⊢
      rw [hrow i]
      exact congrArg _ ih
  have hne : (Embedding.init ne d w0 r a nii b).lora_r ≠ 0 := by
    simp [Embedding.init, hr]
  simp only [Embedding.forward, hne, if_true, ne_eq, not_false_eq_true, if_pos]
  simp only [Embedding.init, hr, ne_eq, not_false_eq_true, if_pos, if_true]
  simp only [tEmbeddingForward, addmm, Option.getD_some]
  exact congrArg (fun rs => Tens.mk x.shape rs) (main x.data)

/-- Witness for C5 at a concrete fresh rank-1 layer and a 2-index tensor. -/
theorem C5_fresh_forward_base_witness :
    (Embedding.init 2 2 [[1, 2], [3, 4]] 1 1 none [[5], [6]]).forward ⟨[2], [0, 1]⟩
      = tEmbeddingForward (Embedding.init 2 2 [[1, 2], [3, 4]] 1 1 none [[5], [6]]).weight
          ⟨[2], [0, 1]⟩ :=
  C5_fresh_forward_base 2 2 1 [[1, 2], [3, 4]] 1 none [[5], [6]] ⟨[2], [0, 1]⟩
    (by decide) (by decide) (by decide) (by decide)

/-- C1: with LoRA active, `forward` on an index tensor of any shape equals the
base embedding lookup plus `scaling * (A[x] @ Bᵀ)`, computed on the flattened
leading dimensions and reshaped back to `x`'s leading shape followed by the
embedding dimension (each output row has length `embedding_dim`). -/
theorem C1_forward_lora (m : Embedding) (x : IdxTensor) (A B : List (List R)) (s : ℚ)
    (hr : m.lora_r ≠ 0) (hA : m.lora_a = some A) (hB : m.lora_b = some B)
    (hs : m.lora_scaling = some s)
    (hW : ∀ row ∈ m.weight, row.length = m.embedding_dim)
    (hWn : m.weight.length = m.num_embeddings)
    (hx : ∀ i ∈ x.data, i < m.num_embeddings)
    (hBl : B.length = m.embedding_dim)
    (hBr : ∀ row ∈ B, row.length = m.lora_r) :
    m.forward x = { leadShape := x.shape
                    rows := matAdd (lookupRows m.weight x.data)
                      (smulMat s (matMul (lookupRows A x.data) (transposeM B))) } ∧
      (m.forward x).rows.map List.length
        = List.replicate x.data.length m.embedding_dim := by
  have h1 : m.forward x = { leadShape := x.shape,
                            rows := matAdd (lookupRows m.weight x.data)
                              (smulMat s (matMul (lookupRows A x.data) (transposeM B))) } := by
    simp [Embedding.forward, tEmbeddingForward, addmm, hr, hA, hB, hs]
  refine ⟨h1, ?_⟩
  have hBt : (transposeM (transposeM B)).length = m.embedding_dim := by
    rw [length_transposeM, numCols_transposeM B m.lora_r hr hBr, hBl]
  rw [h1]
  have main : ∀ l : List Nat, (∀ i ∈ l, i < m.num_embeddings) →
      (matAdd (lookupRows m.weight l)
        (smulMat s (matMul (lookupRows A l) (transposeM B)))).map List.length
      = List.replicate l.length m.embedding_dim := by
    intro l
    induction l with
    | nil => intro _; rfl
    | cons i t ih =>
      intro hl
      have hi : i < m.num_embeddings := hl i (by simp)
      have hwi : (m.weight.getD i []).length = m.embedding_dim := by
        rw [List.getD_eq_getElem _ _ (by rw [hWn]; exact hi)]
        exact hW _ (List.getElem_mem _)
      have ht := ih (fun j hj => hl j (by simp [hj]))
      simp only [lookupRows, List.map_cons, matMul, smulMat, matAdd,
        List.zipWith_cons_cons, List.replicate_succ] at ht ⊢
      rw [ht]
      congr 1
      rw [List.length_zipWith, hwi, List.length_map, List.length_map, hBt, Nat.min_self]
  exact main x.data hx

/-- Witness for C1 at a concrete LoRA-active layer and a 2-index tensor. -/
theorem C1_forward_lora_witness :
    (Embedding.init 2 2 [[1, 2], [3, 4]] 1 2 none [[5], [6]]).forward ⟨[2], [1, 0]⟩
        = { leadShape := [2]
            rows := matAdd
              (lookupRows (Embedding.init 2 2 [[1, 2], [3, 4]] 1 2 none [[5], [6]]).weight
                [1, 0])
              (smulMat 2 (matMul
                (lookupRows (List.replicate 2 (List.replicate 1 (0 : R))) [1, 0])
                (transposeM (ratMat [[5], [6]])))) } ∧
      ((Embedding.init 2 2 [[1, 2], [3, 4]] 1 2 none [[5], [6]]).forward
          ⟨[2], [1, 0]⟩).rows.map List.length = List.replicate 2 2 := by
  simpa using C1_forward_lora (Embedding.init 2 2 [[1, 2], [3, 4]] 1 2 none [[5], [6]])
    ⟨[2], [1, 0]⟩ (List.replicate 2 (List.replicate 1 (0 : R))) (ratMat [[5], [6]])
    (2 / (1 : ℚ)) (by decide) rfl rfl rfl (by decide) (by decide) (by decide)
    (by decide) (by decide)

/-- C8: in pre-norm mode with `need_embedding`, forward normalizes the input
(and the cached `hidden`, when present) with `norm1` before attention,
residual-adds the dropped-out attention output to `x`, applies `norm2` before
the feed-forward block, residual-adds its output, and does not re-normalize the
final result. -/
theorem C8_pre_norm_path (L : EncoderLayer) (x attn_mask h kv : T3) (nw : Bool)
    (h1 : L.norm_first = true)
    (hkv : cat0 (L.norm1 h) (L.norm1 x) = Except.ok kv) :
    (L.forward x attn_mask none true nw
        = Except.ok (some (addT3
            (addT3 x (L.dropout1 (L.self_attn (L.norm1 x) (L.norm1 x) attn_mask nw).1))
            (L.ff (L.norm2 (addT3 x
              (L.dropout1 (L.self_attn (L.norm1 x) (L.norm1 x) attn_mask nw).1))))),
          (L.self_attn (L.norm1 x) (L.norm1 x) attn_mask nw).2)) ∧
      (L.forward x attn_mask (some h) true nw
        = Except.ok (some (addT3
            (addT3 x (L.dropout1 (L.self_attn (L.norm1 x) kv attn_mask nw).1))
            (L.ff (L.norm2 (addT3 x
              (L.dropout1 (L.self_attn (L.norm1 x) kv attn_mask nw).1))))),
          (L.self_attn (L.norm1 x) kv attn_mask nw).2)) := by
  constructor <;> simp [EncoderLayer.forward, h1, hkv]

/-- A concrete encoder layer for ground instances: identity sublayers, attention
returning its query and no weights, pre-norm mode. -/
def encDemo : EncoderLayer :=
  { self_attn := fun q _ _ _ => (q, none)
    linear1 := id, linear2 := id, norm1 := id, norm2 := id
    dropout1 := id, dropout2 := id, dropout3 := id, activation := id
    norm_first := true }

/-- Witness for C8 at the concrete layer, with and without a cached `hidden`. -/
theorem C8_pre_norm_path_witness :
    (encDemo.forward ⟨1, 1, 1, [[[1]]]⟩ ⟨1, 1, 1, [[[0]]]⟩ none true false
        = Except.ok (some (addT3
            (addT3 ⟨1, 1, 1, [[[1]]]⟩ (encDemo.dropout1
              (encDemo.self_attn (encDemo.norm1 ⟨1, 1, 1, [[[1]]]⟩)
                (encDemo.norm1 ⟨1, 1, 1, [[[1]]]⟩) ⟨1, 1, 1, [[[0]]]⟩ false).1))
            (encDemo.ff (encDemo.norm2 (addT3 ⟨1, 1, 1, [[[1]]]⟩ (encDemo.dropout1
              (encDemo.self_attn (encDemo.norm1 ⟨1, 1, 1, [[[1]]]⟩)
                (encDemo.norm1 ⟨1, 1, 1, [[[1]]]⟩) ⟨1, 1, 1, [[[0]]]⟩ false).1))))),
          (encDemo.self_attn (encDemo.norm1 ⟨1, 1, 1, [[[1]]]⟩)
            (encDemo.norm1 ⟨1, 1, 1, [[[1]]]⟩) ⟨1, 1, 1, [[[0]]]⟩ false).2)) ∧
      (encDemo.forward ⟨1, 1, 1, [[[1]]]⟩ ⟨1, 1, 1, [[[0]]]⟩ (some ⟨1, 1, 1, [[[2]]]⟩)
          true false
        = Except.ok (some (addT3
            (addT3 ⟨1, 1, 1, [[[1]]]⟩ (encDemo.dropout1
              (encDemo.self_attn (encDemo.norm1 ⟨1, 1, 1, [[[1]]]⟩)
                ⟨2, 1, 1, [[[2]], [[1]]]⟩ ⟨1, 1, 1, [[[0]]]⟩ false).1))
            (encDemo.ff (encDemo.norm2 (addT3 ⟨1, 1, 1, [[[1]]]⟩ (encDemo.dropout1
              (encDemo.self_attn (encDemo.norm1 ⟨1, 1, 1, [[[1]]]⟩)
                ⟨2, 1, 1, [[[2]], [[1]]]⟩ ⟨1, 1, 1, [[[0]]]⟩ false).1))))),
          (encDemo.self_attn (encDemo.norm1 ⟨1, 1, 1, [[[1]]]⟩)
            ⟨2, 1, 1, [[[2]], [[1]]]⟩ ⟨1, 1, 1, [[[0]]]⟩ false).2)) :=
  C8_pre_norm_path encDemo ⟨1, 1, 1, [[[1]]]⟩ ⟨1, 1, 1, [[[0]]]⟩ ⟨1, 1, 1, [[[2]]]⟩
    ⟨2, 1, 1, [[[2]], [[1]]]⟩ false rfl rfl

/-- C3 (code slip): `forward` concatenates `hidden` with the normalized current
segment along dimension 0, the batch axis of the documented batch-first layout,
not the sequence axis: with a cached `hidden` of 2 positions and a current
segment of 1 position the call fails with the `torch.cat` shape error, and for
equal-length inputs the concatenation doubles the batch while leaving the
sequence length unchanged. -/
theorem C3_kv_cat_batch_axis :
    encDemo.forward ⟨1, 1, 1, [[[1]]]⟩ ⟨1, 1, 1, [[[0]]]⟩ (some ⟨1, 2, 1, [[[2], [3]]]⟩)
        true false
        = Except.error "Sizes of tensors must match except in dimension 0" ∧
      cat0 ⟨1, 1, 1, [[[2]]]⟩ ⟨1, 1, 1, [[[1]]]⟩
        = Except.ok ⟨2, 1, 1, [[[2]], [[1]]]⟩ := by
  constructor <;> rfl
